import Mathlib

/-!
Shallow embedding of the oae-rest client SDK's request-dispatch utility
(`util.js`: `doRequest`, `_performRestRequest`, `fillCookieJar`,
`performRestRequest`, `encodeURI`) and of the picture-download wrappers
(`api.group.js` / `api.user.js` `downloadPicture`), together with theorems
checking the repository's specification against this embedding.

JavaScript values that can appear in a parameter bag are modelled by `JSVal`:
a zero-argument function value is modelled by the value it returns (the code
only ever invokes such functions with no arguments), and a readable stream is
modelled by an opaque numeric identifier.  JSON numbers are modelled as
integers.
-/

namespace OAERest

/-- Model of the JavaScript values handled by the dispatch utility. -/
inductive JSVal where
  | null
  | undefined
  | bool (b : Bool)
  | num (n : Int)
  | str (s : String)
  | arr (elems : List JSVal)
  | obj (fields : List (String × JSVal))
  | func (result : JSVal)
  | stream (id : Nat)

/-- JavaScript truthiness (the `Boolean` coercion used by ramda's `isDefined`
and by bare `if (x)` tests in the source). -/
def truthy : JSVal → Bool
  | .null => false
  | .undefined => false
  | .bool b => b
  | .num n => n != 0
  | .str s => s != ""
  | .arr _ => true
  | .obj _ => true
  | .func _ => true
  | .stream _ => true

/-- `equals(null)` from the source. -/
def isNullJS : JSVal → Bool
  | .null => true
  | _ => false

/-- `equals(undefined)` from the source. -/
def isUndefinedJS : JSVal → Bool
  | .undefined => true
  | _ => false

/-- `is(Boolean)` from the source. -/
def isBooleanJS : JSVal → Bool
  | .bool _ => true
  | _ => false

/-- `value instanceof Stream` from the source. -/
def isStreamJS : JSVal → Bool
  | .stream _ => true
  | _ => false

/-- JavaScript string coercion (ramda `toString` on primitives / `String(x)`). -/
def jsToString : JSVal → String
  | .null => "null"
  | .undefined => "undefined"
  | .bool true => "true"
  | .bool false => "false"
  | .num n => toString n
  | .str s => s
  | .arr _ => ""
  | .obj _ => "[object Object]"
  | .func _ => "function"
  | .stream _ => "[object Object]"

/-- A request parameter bag (`data`): a JavaScript object, modelled as an
insertion-ordered association list. -/
abbrev Data := List (String × JSVal)

end OAERest

namespace OAERest.JSONParse

/-! Executable model of the JavaScript `JSON.parse` builtin used by
`doRequest` to interpret response bodies (numbers restricted to integers). -/

def skipWS : List Char → List Char
  | [] => []
  | c :: cs => if c = ' ' ∨ c = '\t' ∨ c = '\n' ∨ c = '\r' then skipWS cs else c :: cs

def escapeChar : Char → Option Char
  | '"' => some '"'
  | '\\' => some '\\'
  | '/' => some '/'
  | 'b' => some (Char.ofNat 8)
  | 'f' => some (Char.ofNat 12)
  | 'n' => some '\n'
  | 'r' => some '\r'
  | 't' => some '\t'
  | _ => none

/-- Parse the body of a string literal (after the opening quote), returning
the string contents and the remaining input. -/
def parseStringBody : List Char → Option (String × List Char)
  | [] => none
  | '"' :: rest => some ("", rest)
  | '\\' :: rest =>
    match rest with
    | [] => none
    | e :: rest2 =>
      match escapeChar e with
      | none => none
      | some c =>
        match parseStringBody rest2 with
        | none => none
        | some (s, r) => some (c.toString ++ s, r)
  | c :: rest =>
    match parseStringBody rest with
    | none => none
    | some (s, r) => some (c.toString ++ s, r)

def takeDigits : List Char → List Char × List Char
  | [] => ([], [])
  | c :: cs =>
    if c.isDigit then
      let (ds, r) := takeDigits cs
      (c :: ds, r)
    else ([], c :: cs)

def digitsVal (ds : List Char) : Nat :=
  ds.foldl (fun acc c => acc * 10 + (c.toNat - '0'.toNat)) 0

def parseNumber (cs : List Char) : Option (JSVal × List Char) :=
  match cs with
  | '-' :: rest =>
    let (ds, r) := takeDigits rest
    if ds.isEmpty then none else some (.num (-(digitsVal ds : Int)), r)
  | _ =>
    let (ds, r) := takeDigits cs
    if ds.isEmpty then none else some (.num (digitsVal ds), r)

mutual

def parseValue : Nat → List Char → Option (JSVal × List Char)
  | 0, _ => none
  | fuel + 1, cs =>
    match skipWS cs with
    | 'n' :: 'u' :: 'l' :: 'l' :: rest => some (.null, rest)
    | 't' :: 'r' :: 'u' :: 'e' :: rest => some (.bool true, rest)
    | 'f' :: 'a' :: 'l' :: 's' :: 'e' :: rest => some (.bool false, rest)
    | '"' :: rest =>
      (match parseStringBody rest with
       | some (s, r) => some (.str s, r)
       | none => none)
    | '[' :: rest =>
      (match skipWS rest with
       | ']' :: r => some (.arr [], r)
       | _ => parseElements fuel rest [])
    | '\x7b' :: rest =>
      (match skipWS rest with
       | '\x7d' :: r => some (.obj [], r)
       | _ => parseMembers fuel rest [])
    | cs2 => parseNumber cs2

def parseElements : Nat → List Char → List JSVal → Option (JSVal × List Char)
  | 0, _, _ => none
  | fuel + 1, cs, acc =>
    match parseValue fuel cs with
    | none => none
    | some (v, r) =>
      match skipWS r with
      | ',' :: r2 => parseElements fuel r2 (acc ++ [v])
      | ']' :: r2 => some (.arr (acc ++ [v]), r2)
      | _ => none

def parseMembers : Nat → List Char → List (String × JSVal) → Option (JSVal × List Char)
  | 0, _, _ => none
  | fuel + 1, cs, acc =>
    match skipWS cs with
    | '"' :: rest =>
      (match parseStringBody rest with
       | none => none
       | some (k, r) =>
         match skipWS r with
         | ':' :: r2 =>
           (match parseValue fuel r2 with
            | none => none
            | some (v, r3) =>
              match skipWS r3 with
              | ',' :: r4 => parseMembers fuel r4 (acc ++ [(k, v)])
              | '\x7d' :: r4 => some (.obj (acc ++ [(k, v)]), r4)
              | _ => none)
         | _ => none)
    | _ => none

end

end OAERest.JSONParse

namespace OAERest

/-- Model of `JSON.parse`: succeeds exactly when the whole input is one JSON
value (with trailing whitespace allowed). -/
def parseJSON (s : String) : Option JSVal :=
  match JSONParse.parseValue (s.length + 1) s.data with
  | some (v, rest) => if (JSONParse.skipWS rest).isEmpty then some v else none
  | none => none

/-! ### `doRequest` (util.js): parameter normalization and serialization -/

/-- First pass of `doRequest` on one array element: a function element is
invoked and its result checked for being a stream; any other element is
returned unchanged (in particular a stream given directly as an array element
is not checked). -/
def resolveArrayElem (inner : JSVal) : JSVal × Bool :=
  match inner with
  | .func r => (r, isStreamJS r)
  | v => (v, false)

/-- First pass of `doRequest` on one parameter value: expand function values
and detect streams.  The returned flag is this value's contribution to
`hasStream`. -/
def resolveValue (value : JSVal) : JSVal × Bool :=
  match value with
  | .arr xs =>
    let resolved := xs.map resolveArrayElem
    (.arr (resolved.map Prod.fst), resolved.any Prod.snd)
  | .func r => (r, isStreamJS r)
  | .stream id => (.stream id, true)
  | v => (v, false)

/-- First pass of `doRequest` over the whole bag: expanded bag plus the
`hasStream` flag. -/
def resolveData (data : Data) : Data × Bool :=
  (data.map (fun kv => (kv.1, (resolveValue kv.2).1)),
   data.any (fun kv => (resolveValue kv.2).2))

/-- Second pass of `doRequest` ("Sanitize the parameters") on one value:
`null`/`undefined` entries are deleted, arrays are filtered with ramda's
`isDefined` (which is the `Boolean` coercion) and deleted when they become
empty.  `none` means the key is deleted. -/
def sanitizeValue : JSVal → Option JSVal
  | .null => none
  | .undefined => none
  | .arr xs =>
    let kept := xs.filter truthy
    if kept.isEmpty then none else some (.arr kept)
  | v => some v

/-- Second pass of `doRequest` over the whole bag. -/
def sanitizeData (data : Data) : Data :=
  data.filterMap (fun kv => (sanitizeValue kv.2).map (fun v => (kv.1, v)))

/-- Both normalization passes of `doRequest`, in source order. -/
def normalizeData (data : Data) : Data :=
  sanitizeData (resolveData data).1

/-- The serialized form of a request produced by `doRequest`: the `qs`
option, the `form` option, and the multipart parts appended to
`request_.form()` (each `none` when the corresponding branch is not taken). -/
structure Serialization where
  qs : Option Data
  form : Option Data
  multipart : Option (List (String × JSVal))

/-- The multipart append loop of `doRequest`, transcribed faithfully: arrays
are unrolled one part per element, and the Boolean check in the array branch
tests the array `value` itself (not the element). -/
def multipartParts (data : Data) : List (String × JSVal) :=
  data.flatMap (fun kv =>
    match kv.2 with
    | .arr xs =>
      xs.map (fun inner =>
        if isBooleanJS (.arr xs) then (kv.1, JSVal.str (jsToString inner))
        else (kv.1, inner))
    | v =>
      if isBooleanJS v then [(kv.1, JSVal.str (jsToString v))]
      else [(kv.1, v)])

/-- `doRequest`'s serialization decision: normalize the bag, then if it is
non-empty place it in the query string (GET) or the form body (non-GET, no
stream detected); independently, when a stream was detected append the bag as
multipart parts. -/
def serializeRequest (method : String) (data0 : Data) : Serialization :=
  let r := resolveData data0
  let hasStream := r.2
  let data := sanitizeData r.1
  { qs := if data.isEmpty then none
          else if method = "GET" then some data else none,
    form := if data.isEmpty then none
            else if method = "GET" then none
            else if hasStream then none else some data,
    multipart := if hasStream then some (multipartParts data) else none }

/-! ### `doRequest` (util.js): outcome classification -/

/-- The outcome of the underlying `request` call: a transport failure (the
`err` argument, with its `message` and `stack`) or an HTTP response with a
status code and a body. -/
inductive RequestOutcome where
  | transportFailure (message : String) (stack : String)
  | httpResponse (statusCode : Nat) (body : String)

/-- What `doRequest` delivers to its callback: an error pair `{code, msg}` or
a successful body. -/
inductive CallbackResult where
  | err (code : Nat) (msg : String)
  | ok (body : JSVal)

/-- The `util.format` message built for a transport failure. -/
def transportErrorMsg (message stack : String) : String :=
  "Something went wrong trying to contact the server:\n" ++ message ++ "\n" ++ stack

/-- `JSON.parse` in a `try`: the parsed value when the body is valid JSON,
the raw string otherwise. -/
def jsonOrRaw (body : String) : JSVal :=
  match parseJSON body with
  | some v => v
  | none => .str body

/-- The response callback of `doRequest`, transcribed from the source:
transport failure gives `{code: 500, msg: format(...)}`; `lte(400,
statusCode)` gives `{code: statusCode, msg: body}`; otherwise the body is
delivered, JSON-parsed when possible. -/
def handleOutcome : RequestOutcome → CallbackResult
  | .transportFailure m st => .err 500 (transportErrorMsg m st)
  | .httpResponse sc body =>
    if 400 ≤ sc then .err sc body
    else .ok (jsonOrRaw body)

/-- Whether a callback result is an error pair. -/
def isErr : CallbackResult → Bool
  | .err _ _ => true
  | .ok _ => false

/-! ### `encodeURI` (util.js), exported as `encodeURIComponent` -/

/-- The characters the native `encodeURIComponent` leaves unescaped. -/
def isUnreservedURI (c : Char) : Bool :=
  c.isAlpha || c.isDigit ||
    [Char.ofNat 45, Char.ofNat 95, Char.ofNat 46, Char.ofNat 33, Char.ofNat 126,
     Char.ofNat 42, Char.ofNat 39, Char.ofNat 40, Char.ofNat 41].contains c

/-- UTF-8 encoding of a code point, as a list of byte values. -/
def utf8Encode (n : Nat) : List Nat :=
  if n < 128 then [n]
  else if n < 2048 then [192 + n / 64, 128 + n % 64]
  else if n < 65536 then [224 + n / 4096, 128 + (n / 64) % 64, 128 + n % 64]
  else [240 + n / 262144, 128 + (n / 4096) % 64, 128 + (n / 64) % 64, 128 + n % 64]

def hexDigit (n : Nat) : Char :=
  if n < 10 then Char.ofNat (48 + n) else Char.ofNat (55 + n)

/-- A percent-escaped byte, e.g. `%2F`. -/
def percentByte (b : Nat) : String :=
  String.mk ['%', hexDigit (b / 16), hexDigit (b % 16)]

/-- Model of the native `encodeURIComponent` builtin: coerce to string, then
percent-encode every character outside the unreserved set. -/
def encodeURIComponentJS (v : JSVal) : String :=
  String.join ((jsToString v).data.map (fun c =>
    if isUnreservedURI c then String.mk [c]
    else String.join ((utf8Encode c.toNat).map percentByte)))

/-- `encodeURI` from util.js (exported as `encodeURIComponent`): the empty
string for `null`, the native encoding for everything else. -/
def encodeURI (v : JSVal) : String :=
  if isNullJS v then "" else encodeURIComponentJS v

/-! ### `_performRestRequest` (util.js): request options and headers -/

/-- The caller-owned request context (`RestContext`).  The cookie jar is
modelled by an opaque numeric identifier; absent means the jar has not been
created yet.  `hostHeader` and `refererHeader` keep their JavaScript-valued
nature because the source tests them with truthiness and null/undefined
checks respectively. -/
structure RestContext where
  host : String
  username : JSVal
  userPassword : JSVal
  cookieJar : Option Nat
  strictSSL : Bool
  hostHeader : JSVal
  refererHeader : JSVal
  additionalHeaders : Option (List (String × String))
  followRedirect : Bool

/-- The request options assembled by `_performRestRequest` (the fields the
claims are about). -/
structure RequestOptions where
  url : String
  method : String
  jar : Option Nat
  strictSSL : Bool
  followRedirect : Bool
  headers : List (String × String)

/-- JavaScript object property assignment on a header map: update the
existing key in place, or append a new one. -/
def setHeader : List (String × String) → String → String → List (String × String)
  | [], k, v => [(k, v)]
  | (k0, v0) :: rest, k, v =>
    if k0 = k then (k0, v) :: rest else (k0, v0) :: setHeader rest k v

/-- `mergeAll([headers, additionalHeaders])`: fold the extra headers into the
base map, later writes winning. -/
def mergeHeaders (base extra : List (String × String)) : List (String × String) :=
  extra.foldl (fun acc kv => setHeader acc kv.1 kv.2) base

/-- Header lookup. -/
def headerLookup : List (String × String) → String → Option String
  | [], _ => none
  | (k0, v0) :: rest, k => if k0 = k then some v0 else headerLookup rest k

/-- The characters before the first colon. -/
def beforeColon : List Char → List Char
  | [] => []
  | c :: rest => if c = ':' then [] else c :: beforeColon rest

/-- `split(':', host)` followed by taking the first segment. -/
def hostProtocol (host : String) : String :=
  String.mk (beforeColon host.data)

/-- The request-options assembly of `_performRestRequest`, transcribed from
the source: URL concatenation, merge of `additionalHeaders`, the Host header
and derived referer when `hostHeader` is truthy, the referer override when it
is neither null nor undefined, and the final referer assignment. -/
def buildRequestOptions (restCtx : RestContext) (url method : String) : RequestOptions :=
  let headers0 : List (String × String) := []
  let headers1 :=
    match restCtx.additionalHeaders with
    | some extra => mergeHeaders headers0 extra
    | none => headers0
  let referer0 := restCtx.host ++ "/"
  let headers2 :=
    if truthy restCtx.hostHeader then
      setHeader headers1 "host" (jsToString restCtx.hostHeader)
    else headers1
  let referer1 :=
    if truthy restCtx.hostHeader then
      hostProtocol restCtx.host ++ "://" ++ jsToString restCtx.hostHeader ++ "/"
    else referer0
  let referer2 :=
    if isNullJS restCtx.refererHeader = false ∧ isUndefinedJS restCtx.refererHeader = false then
      jsToString restCtx.refererHeader
    else referer1
  { url := restCtx.host ++ url,
    method := method,
    jar := restCtx.cookieJar,
    strictSSL := restCtx.strictSSL,
    followRedirect := restCtx.followRedirect,
    headers := setHeader headers2 "referer" referer2 }

/-! ### `performRestRequest` / `fillCookieJar` (util.js) -/

/-- One dispatch through `_performRestRequest`: the endpoint path, the HTTP
method and the raw parameter bag. -/
structure DispatchRecord where
  url : String
  method : String
  data : Data

/-- Result of a `performRestRequest` call: the (possibly updated) context,
the ordered list of requests actually dispatched, and the value delivered to
the caller's continuation. -/
structure PerformResult where
  ctx : RestContext
  trace : List DispatchRecord
  result : CallbackResult

/-- `fillCookieJar`: no login request when the context's username is not
truthy; otherwise a POST to `/api/auth/login` with the context's username and
password, whose error (if any) is handed to the callback.  Returns the
dispatched requests and the error passed to the callback. -/
def fillCookieJarModel (restCtx : RestContext) (loginOutcome : RequestOutcome) :
    List DispatchRecord × Option CallbackResult :=
  if truthy restCtx.username = false then ([], none)
  else
    ([{ url := "/api/auth/login", method := "POST",
        data := [("username", restCtx.username), ("password", restCtx.userPassword)] }],
     match handleOutcome loginOutcome with
     | .err c m => some (.err c m)
     | .ok _ => none)

/-- `performRestRequest`: dispatch directly when the context already holds a
cookie jar; otherwise install a fresh jar (`newJar`), run `fillCookieJar`,
surface a login error without dispatching, and dispatch the endpoint after a
successful (or skipped) login.  `loginOutcome` and `mainOutcome` are the
server's responses to the login and to the requested endpoint. -/
def performRestRequestModel (restCtx : RestContext) (url method : String) (data : Data)
    (newJar : Nat) (loginOutcome mainOutcome : RequestOutcome) : PerformResult :=
  match restCtx.cookieJar with
  | some _ =>
    { ctx := restCtx,
      trace := [{ url := url, method := method, data := data }],
      result := handleOutcome mainOutcome }
  | none =>
    let ctx2 := { restCtx with cookieJar := some newJar }
    let fill := fillCookieJarModel ctx2 loginOutcome
    match fill.2 with
    | some e => { ctx := ctx2, trace := fill.1, result := e }
    | none =>
      { ctx := ctx2,
        trace := fill.1 ++ [{ url := url, method := method, data := data }],
        result := handleOutcome mainOutcome }

/-! ### `downloadPicture` (api.group.js / api.user.js) -/

/-- JavaScript property access `v[k]` on a response value: a TypeError
(`none`) when the receiver is null or undefined, the field value when the
receiver is an object holding the key, and `undefined` otherwise (absent key,
or a boxed primitive receiver). -/
def getProp (v : JSVal) (k : String) : Option JSVal :=
  match v with
  | .null => none
  | .undefined => none
  | .obj fields =>
    some (match fields.find? (fun kv => kv.1 == k) with
          | some kv => kv.2
          | none => .undefined)
  | _ => some .undefined

/-- How a `downloadPicture` call ends: either the continuation is invoked
with a result, or the property access `principal.picture[size]` throws a
TypeError and the continuation is never invoked. -/
inductive DownloadOutcome where
  | callback (r : CallbackResult)
  | thrown

/-- `downloadPicture` from api.group.js: reject a missing size before any
request; fetch the group profile; evaluate `group.picture[size]` (which
throws a TypeError when `group` or `group.picture` is null or undefined);
404 when the result is not truthy; otherwise request the picture URL.
Returns the final outcome and the trace of `(path, method)` pairs dispatched
via `performRestRequest`. -/
def groupDownloadPicture (groupId size : JSVal)
    (profileOutcome downloadOutcome : RequestOutcome) :
    DownloadOutcome × List (String × String) :=
  if truthy size = false then (.callback (.err 400 "Missing size parameter"), [])
  else
    let fetchPath := "/api/group/" ++ encodeURI groupId
    match handleOutcome profileOutcome with
    | .err c m => (.callback (.err c m), [(fetchPath, "GET")])
    | .ok group =>
      match getProp group "picture" with
      | none => (.thrown, [(fetchPath, "GET")])
      | some picture =>
        match getProp picture (jsToString size) with
        | none => (.thrown, [(fetchPath, "GET")])
        | some pic =>
          if truthy pic = false then
            (.callback (.err 404 "This group has no picture."), [(fetchPath, "GET")])
          else
            (.callback (handleOutcome downloadOutcome),
             [(fetchPath, "GET"), (jsToString pic, "GET")])

/-- `downloadPicture` from api.user.js: same shape via `getUser`, with the
user profile path and message. -/
def userDownloadPicture (userId size : JSVal)
    (profileOutcome downloadOutcome : RequestOutcome) :
    DownloadOutcome × List (String × String) :=
  if truthy size = false then (.callback (.err 400 "Missing size parameter"), [])
  else
    let fetchPath := "/api/user/" ++ encodeURI userId
    match handleOutcome profileOutcome with
    | .err c m => (.callback (.err c m), [(fetchPath, "GET")])
    | .ok user =>
      match getProp user "picture" with
      | none => (.thrown, [(fetchPath, "GET")])
      | some picture =>
        match getProp picture (jsToString size) with
        | none => (.thrown, [(fetchPath, "GET")])
        | some pic =>
          if truthy pic = false then
            (.callback (.err 404 "This user has no picture."), [(fetchPath, "GET")])
          else
            (.callback (handleOutcome downloadOutcome),
             [(fetchPath, "GET"), (jsToString pic, "GET")])

/-! ### Definitions following the specification's wording (for comparison) -/

/-- Per the claims' wording, a value is "defined" when it is neither `null`
nor `undefined`. -/
def definedPerSpec : JSVal → Bool
  | .null => false
  | .undefined => false
  | _ => true

/-- Per the claims' wording, a bag "contains a stream" when some parameter
value is a stream directly, a function returning a stream, or an array one of
whose elements is either. -/
def claimHasStream (data : Data) : Bool :=
  data.any (fun kv =>
    match kv.2 with
    | .stream _ => true
    | .func r => isStreamJS r
    | .arr xs =>
      xs.any (fun e =>
        match e with
        | .stream _ => true
        | .func r => isStreamJS r
        | _ => false)
    | _ => false)

/-- The per-value normalization as the amended claim C5 words it: invoke
function values (top level and inside arrays), drop `null`/`undefined` keys,
keep only truthy array elements, and drop a key whose array becomes empty. -/
def normalizeEntrySpec (v : JSVal) : Option JSVal :=
  let v2 : JSVal :=
    match v with
    | .func r => r
    | .arr xs =>
      .arr (xs.map (fun e =>
        match e with
        | .func r => r
        | e2 => e2))
    | v2 => v2
  match v2 with
  | .null => none
  | .undefined => none
  | .arr xs =>
    let kept := xs.filter truthy
    if kept.isEmpty then none else some (.arr kept)
  | v3 => some v3

/-! ### Helper lemmas about header maps -/

theorem headerLookup_setHeader_self (hs : List (String × String)) (k v : String) :
    headerLookup (setHeader hs k v) k = some v := by
  induction hs with
  | nil => simp [setHeader, headerLookup]
  | cons head rest ih =>
    obtain ⟨k0, v0⟩ := head
    by_cases h : k0 = k
    · simp [setHeader, headerLookup, h]
    · simp [setHeader, headerLookup, h, ih]

theorem headerLookup_setHeader_ne (hs : List (String × String)) (k v k2 : String)
    (h : k2 ≠ k) : headerLookup (setHeader hs k v) k2 = headerLookup hs k2 := by
  induction hs with
  | nil =>
    have h2 : ¬k = k2 := fun hk => h hk.symm
    simp [setHeader, headerLookup, h2]
  | cons head rest ih =>
    obtain ⟨k0, v0⟩ := head
    by_cases h0 : k0 = k
    · subst h0
      have h2 : ¬k0 = k2 := fun hk => h hk.symm
      simp [setHeader, headerLookup, h2]
    · by_cases h2 : k0 = k2
      · simp [setHeader, headerLookup, h0, h2, h]
      · simp [setHeader, headerLookup, h0, h2, ih]

theorem mergeHeaders_cons (base : List (String × String)) (k v : String)
    (extra : List (String × String)) :
    mergeHeaders base ((k, v) :: extra) = mergeHeaders (setHeader base k v) extra := rfl

theorem headerLookup_mergeHeaders_notin (extra : List (String × String)) :
    ∀ base k, k ∉ extra.map Prod.fst →
      headerLookup (mergeHeaders base extra) k = headerLookup base k := by
  induction extra with
  | nil => intro base k _; rfl
  | cons head rest ih =>
    intro base k hk
    obtain ⟨k0, v0⟩ := head
    simp only [List.map_cons, List.mem_cons] at hk
    push_neg at hk
    rw [mergeHeaders_cons, ih _ _ hk.2, headerLookup_setHeader_ne _ _ _ _ hk.1]

theorem headerLookup_mergeHeaders_mem (extra : List (String × String)) :
    ∀ base k v, (k, v) ∈ extra → (extra.map Prod.fst).Nodup →
      headerLookup (mergeHeaders base extra) k = some v := by
  induction extra with
  | nil => intro _ _ _ h _; simp at h
  | cons head rest ih =>
    intro base k v hmem hnd
    obtain ⟨k0, v0⟩ := head
    simp only [List.map_cons, List.nodup_cons] at hnd
    rcases List.mem_cons.mp hmem with heq | hmem2
    · obtain ⟨hk, hv⟩ := Prod.mk.injEq k v k0 v0 ▸ heq
      subst hk
      subst hv
      rw [mergeHeaders_cons, headerLookup_mergeHeaders_notin rest _ _ hnd.1,
        headerLookup_setHeader_self]
    · rw [mergeHeaders_cons]
      exact ih (setHeader base k0 v0) k v hmem2 hnd.2

/-! ### Claims -/

/-- Claim C1: every outcome delivered by `doRequest` is classified as
follows: a transport failure yields the error pair `(500, message built from
the underlying error)`; a response with status at least 400 yields the error
pair `(status, body)`; any other response yields a null error with the body,
JSON-parsed when the body is valid JSON and the raw string otherwise. -/
theorem claim_C1_outcome_classification (m st : String) (sc : Nat) (body : String) :
    handleOutcome (.transportFailure m st) = .err 500 (transportErrorMsg m st)
    ∧ (400 ≤ sc → handleOutcome (.httpResponse sc body) = .err sc body)
    ∧ (sc < 400 →
        handleOutcome (.httpResponse sc body)
          = .ok (match parseJSON body with
                 | some v => v
                 | none => .str body)) := by
  refine ⟨rfl, ?_, ?_⟩
  · intro h
    simp [handleOutcome, h]
  · intro h
    simp only [handleOutcome, Nat.not_le.mpr h, if_false]
    rfl

/-- Witness for claim C1 at concrete outcomes. -/
theorem claim_C1_witness :
    handleOutcome (.httpResponse 404 "nope") = .err 404 "nope"
    ∧ handleOutcome (.httpResponse 200 "[1]") = .ok (.arr [.num 1]) := by
  have h1 := claim_C1_outcome_classification "" "" 404 "nope"
  have h2 := claim_C1_outcome_classification "" "" 200 "[1]"
  exact ⟨h1.2.1 (by decide), (h2.2.2 (by decide)).trans rfl⟩

/-- Claim C3 (evaluated at the inputs where the code deviates from it): the
claim says a stream contained in an array-valued parameter triggers the
multipart mode and that Boolean values are appended to multipart forms as
their string representation.  The code does neither: a stream given directly
as an array element is not detected (the bag is form-encoded instead), and a
Boolean array element is appended unstringified because the source tests the
array, not the element, for Boolean-ness. -/
theorem claim_C3_stream_detection_eval :
    (claimHasStream [("file", .arr [.stream 0])] = true
      ∧ serializeRequest "POST" [("file", .arr [.stream 0])]
          = { qs := none, form := some [("file", .arr [.stream 0])], multipart := none })
    ∧ serializeRequest "POST" [("visible", .arr [.bool true]), ("file", .func (.stream 0))]
        = { qs := none, form := none,
            multipart := some [("visible", .bool true), ("file", .stream 0)] } :=
  ⟨⟨rfl, rfl⟩, rfl⟩

/-- Counterexample to claim C4 as stated: a 302 response lies outside the
200-299 range yet is not classified as an error pair. -/
theorem claim_C4_counterexample :
    (302 < 200 ∨ 299 < 302)
    ∧ isErr (handleOutcome (.httpResponse 302 "Found")) = false :=
  ⟨Or.inr (by decide), rfl⟩

/-- Claim C4 as amended: `doRequest` surfaces an error to the continuation
exactly when the transport fails or the response status code is at least 400;
responses with status below 400 (including 1xx and 3xx) are delivered as
successes. -/
theorem claim_C4_amended (sc : Nat) (body m st : String) :
    (isErr (handleOutcome (.httpResponse sc body)) = true ↔ 400 ≤ sc)
    ∧ isErr (handleOutcome (.transportFailure m st)) = true := by
  refine ⟨?_, rfl⟩
  by_cases h : 400 ≤ sc <;> simp [handleOutcome, isErr, h]

/-- Witness for the amended claim C4 at a concrete status code. -/
theorem claim_C4_amended_witness :
    isErr (handleOutcome (.httpResponse 500 "oops")) = true :=
  (claim_C4_amended 500 "oops" "" "").1.mpr (by decide)

/-- Counterexample to claim C5 as stated: `false` is a defined value (neither
null nor undefined), yet an array parameter holding only `false` is emptied
and its key removed by the normalization, because the code filters array
elements with the `Boolean` coercion. -/
theorem claim_C5_counterexample :
    definedPerSpec (.bool false) = true
    ∧ normalizeData [("visible", .arr [.bool false])] = [] :=
  ⟨rfl, rfl⟩

/-- Claim C5 as amended: normalization removes keys bound to null or
undefined, replaces function-valued parameters (top level and array elements)
by the result of invoking them, keeps only the truthy elements of an
array-valued parameter (so `false`, `0`, the empty string, null and undefined
are all dropped), and removes a key whose array becomes empty. -/
theorem claim_C5_amended :
    normalizeData [] = []
    ∧ ∀ (k : String) (v : JSVal) (d : Data),
        normalizeData ((k, v) :: d)
          = (match normalizeEntrySpec v with
             | none => normalizeData d
             | some v2 => (k, v2) :: normalizeData d) := by
  refine ⟨rfl, ?_⟩
  intro k v d
  have hval : sanitizeValue (resolveValue v).1 = normalizeEntrySpec v := by
    cases v with
    | arr xs =>
      have hfun : (fun e => (resolveArrayElem e).1)
          = (fun e : JSVal =>
              match e with
              | .func r => r
              | e2 => e2) := by
        funext e
        cases e <;> rfl
      simp only [resolveValue, normalizeEntrySpec, sanitizeValue, List.map_map,
        Function.comp_def, hfun]
    | func r => cases r <;> rfl
    | null => rfl
    | undefined => rfl
    | bool b => rfl
    | num n => rfl
    | str s => rfl
    | obj fs => rfl
    | stream id => rfl
  simp only [normalizeData, resolveData, List.map_cons, sanitizeData, List.filterMap_cons]
  rw [hval]
  cases hent : normalizeEntrySpec v <;> simp [hent]

/-- Claim C10: the exported `encodeURIComponent` wrapper maps null to the
empty string and any other input to the native percent-encoding of that
input; in particular undefined is not treated like null and encodes to the
string "undefined". -/
theorem claim_C10_encodeURI (v : JSVal) :
    encodeURI .null = ""
    ∧ (v ≠ .null → encodeURI v = encodeURIComponentJS v)
    ∧ encodeURI .undefined = "undefined" := by
  refine ⟨rfl, ?_, rfl⟩
  intro h
  cases v with
  | null => exact absurd rfl h
  | undefined => rfl
  | bool b => rfl
  | num n => rfl
  | str s => rfl
  | arr xs => rfl
  | obj fs => rfl
  | func r => rfl
  | stream id => rfl

/-- Witness for claim C10 at a concrete non-null input. -/
theorem claim_C10_witness :
    encodeURI (.str "cam bridge") = encodeURIComponentJS (.str "cam bridge")
    ∧ encodeURI (.str "cam bridge") = "cam%20bridge" := by
  have h := (claim_C10_encodeURI (.str "cam bridge")).2.1
    (fun hh => JSVal.noConfusion hh)
  exact ⟨h, h.trans rfl⟩

/-- Claim C2: with a cookie jar already on the context the endpoint is
dispatched immediately with no login; with no jar and a (truthy) username, a
POST to `/api/auth/login` with the context's username and password is
dispatched first, a login failure is surfaced without the endpoint ever being
dispatched, and only a successful login is followed by the endpoint; with no
jar and no username the endpoint is dispatched without a login. -/
theorem claim_C2_lazy_login (ctx : RestContext) (url method : String) (data : Data)
    (newJar : Nat) (lo mo : RequestOutcome) :
    (∀ j, ctx.cookieJar = some j →
        (performRestRequestModel ctx url method data newJar lo mo).trace
            = [{ url := url, method := method, data := data }]
        ∧ (performRestRequestModel ctx url method data newJar lo mo).result
            = handleOutcome mo)
    ∧ (ctx.cookieJar = none →
        (truthy ctx.username = true →
            (∀ c m, handleOutcome lo = .err c m →
              (performRestRequestModel ctx url method data newJar lo mo).trace
                  = [{ url := "/api/auth/login", method := "POST",
                       data := [("username", ctx.username),
                                ("password", ctx.userPassword)] }]
              ∧ (performRestRequestModel ctx url method data newJar lo mo).result
                  = .err c m)
            ∧ (∀ b, handleOutcome lo = .ok b →
                (performRestRequestModel ctx url method data newJar lo mo).trace
                    = [{ url := "/api/auth/login", method := "POST",
                         data := [("username", ctx.username),
                                  ("password", ctx.userPassword)] },
                       { url := url, method := method, data := data }]))
        ∧ (truthy ctx.username = false →
            (performRestRequestModel ctx url method data newJar lo mo).trace
                = [{ url := url, method := method, data := data }])) := by
  constructor
  · rintro j hj
    simp [performRestRequestModel, hj]
  · intro hj
    constructor
    · intro htr
      constructor
      · intro c m herr
        simp [performRestRequestModel, fillCookieJarModel, hj, htr, herr]
      · intro b hok
        simp [performRestRequestModel, fillCookieJarModel, hj, htr, hok]
    · intro htr
      simp [performRestRequestModel, fillCookieJarModel, hj, htr]

/-- A concrete context carrying credentials and no cookie jar. -/
def ctxAlice : RestContext :=
  { host := "http://cambridge.oae.com", username := .str "alice",
    userPassword := .str "secret", cookieJar := none, strictSSL := true,
    hostHeader := .undefined, refererHeader := .undefined,
    additionalHeaders := none, followRedirect := true }

/-- Witness for claim C2: on a fresh context with credentials, the login is
dispatched before the requested endpoint. -/
theorem claim_C2_witness :
    (performRestRequestModel ctxAlice "/api/me" "GET" [] 7
        (.httpResponse 200 "signed in") (.httpResponse 200 "me")).trace
      = [{ url := "/api/auth/login", method := "POST",
           data := [("username", .str "alice"), ("password", .str "secret")] },
         { url := "/api/me", method := "GET", data := [] }] := by
  have h := claim_C2_lazy_login ctxAlice "/api/me" "GET" [] 7
    (.httpResponse 200 "signed in") (.httpResponse 200 "me")
  exact ((h.2 rfl).1 rfl).2 (.str "signed in") rfl

/-- Claim C6: the only context field any dispatch ever mutates is the cookie
jar, and only by populating it when it was unset; host, username, password,
TLS strictness, host-header override, referer override and extra headers are
unchanged. -/
theorem claim_C6_frame (ctx : RestContext) (url method : String) (data : Data)
    (newJar : Nat) (lo mo : RequestOutcome) :
    (performRestRequestModel ctx url method data newJar lo mo).ctx.host = ctx.host
    ∧ (performRestRequestModel ctx url method data newJar lo mo).ctx.username = ctx.username
    ∧ (performRestRequestModel ctx url method data newJar lo mo).ctx.userPassword
        = ctx.userPassword
    ∧ (performRestRequestModel ctx url method data newJar lo mo).ctx.strictSSL = ctx.strictSSL
    ∧ (performRestRequestModel ctx url method data newJar lo mo).ctx.hostHeader = ctx.hostHeader
    ∧ (performRestRequestModel ctx url method data newJar lo mo).ctx.refererHeader
        = ctx.refererHeader
    ∧ (performRestRequestModel ctx url method data newJar lo mo).ctx.additionalHeaders
        = ctx.additionalHeaders
    ∧ (performRestRequestModel ctx url method data newJar lo mo).ctx.followRedirect
        = ctx.followRedirect
    ∧ (∀ j, ctx.cookieJar = some j →
        (performRestRequestModel ctx url method data newJar lo mo).ctx = ctx)
    ∧ (ctx.cookieJar = none →
        (performRestRequestModel ctx url method data newJar lo mo).ctx.cookieJar
          = some newJar) := by
  rcases hj : ctx.cookieJar with _ | j
  · rcases hfill : (fillCookieJarModel { ctx with cookieJar := some newJar } lo).2 with _ | e
    · refine ⟨?_, ?_, ?_, ?_, ?_, ?_, ?_, ?_, ?_, ?_⟩ <;>
        simp [performRestRequestModel, hj, hfill]
    · refine ⟨?_, ?_, ?_, ?_, ?_, ?_, ?_, ?_, ?_, ?_⟩ <;>
        simp [performRestRequestModel, hj, hfill]
  · refine ⟨?_, ?_, ?_, ?_, ?_, ?_, ?_, ?_, ?_, ?_⟩ <;>
      simp [performRestRequestModel, hj]

/-- Witness for claim C6 on a concrete fresh context. -/
theorem claim_C6_witness :
    (performRestRequestModel ctxAlice "/api/me" "GET" [] 7
        (.httpResponse 200 "signed in") (.httpResponse 200 "me")).ctx.username
      = .str "alice"
    ∧ (performRestRequestModel ctxAlice "/api/me" "GET" [] 7
        (.httpResponse 200 "signed in") (.httpResponse 200 "me")).ctx.cookieJar
      = some 7 := by
  have h := claim_C6_frame ctxAlice "/api/me" "GET" [] 7
    (.httpResponse 200 "signed in") (.httpResponse 200 "me")
  exact ⟨h.2.1, h.2.2.2.2.2.2.2.2.2 rfl⟩

/-- Claim C8: after any `performRestRequest` call the context's cookie jar is
set (even when the login failed), and every later call on that context
dispatches the requested endpoint directly, with no login request. -/
theorem claim_C8_jar_persistence (ctx : RestContext) (url method : String) (data : Data)
    (newJar : Nat) (lo mo : RequestOutcome) (url2 method2 : String) (data2 : Data)
    (newJar2 : Nat) (lo2 mo2 : RequestOutcome) :
    ((performRestRequestModel ctx url method data newJar lo mo).ctx.cookieJar).isSome = true
    ∧ (performRestRequestModel
          (performRestRequestModel ctx url method data newJar lo mo).ctx
          url2 method2 data2 newJar2 lo2 mo2).trace
        = [{ url := url2, method := method2, data := data2 }] := by
  have hsome :
      ((performRestRequestModel ctx url method data newJar lo mo).ctx.cookieJar).isSome
        = true := by
    rcases hj : ctx.cookieJar with _ | j
    · rcases hfill : (fillCookieJarModel { ctx with cookieJar := some newJar } lo).2 with _ | e <;>
        simp [performRestRequestModel, hj, hfill]
    · simp [performRestRequestModel, hj]
  refine ⟨hsome, ?_⟩
  generalize (performRestRequestModel ctx url method data newJar lo mo).ctx = c2 at hsome ⊢
  rcases hj2 : c2.cookieJar with _ | j2
  · rw [hj2] at hsome
    simp at hsome
  · simp [performRestRequestModel, hj2]

/-- Claim C7: the dispatched URL is the context's host concatenated with the
endpoint path; extra headers are merged in first; a truthy host-header
override sets the Host header and makes the default referer
`protocol://hostHeader/`; with no override the default referer is `host/`;
and a referer override that is neither null nor undefined replaces the
default, the final referer always winning over any referer among the extra
headers. -/
theorem claim_C7_url_and_headers (ctx : RestContext) (path method : String) :
    (buildRequestOptions ctx path method).url = ctx.host ++ path
    ∧ headerLookup (buildRequestOptions ctx path method).headers "referer"
        = some (if isNullJS ctx.refererHeader = false ∧ isUndefinedJS ctx.refererHeader = false
                then jsToString ctx.refererHeader
                else if truthy ctx.hostHeader
                then hostProtocol ctx.host ++ "://" ++ jsToString ctx.hostHeader ++ "/"
                else ctx.host ++ "/")
    ∧ (truthy ctx.hostHeader = true →
        headerLookup (buildRequestOptions ctx path method).headers "host"
          = some (jsToString ctx.hostHeader))
    ∧ (∀ extra k v, ctx.additionalHeaders = some extra →
        (extra.map Prod.fst).Nodup → (k, v) ∈ extra →
        k ≠ "referer" → k ≠ "host" →
        headerLookup (buildRequestOptions ctx path method).headers k = some v) := by
  refine ⟨rfl, ?_, ?_, ?_⟩
  · simp only [buildRequestOptions, headerLookup_setHeader_self]
  · intro hh
    simp only [buildRequestOptions, hh, if_true]
    rw [headerLookup_setHeader_ne _ _ _ _ (by decide : ("host" : String) ≠ "referer")]
    simp [headerLookup_setHeader_self]
  · intro extra k v hadd hnd hmem hkr hkh
    simp only [buildRequestOptions, hadd]
    rw [headerLookup_setHeader_ne _ _ _ _ hkr]
    by_cases hh : truthy ctx.hostHeader
    · simp only [hh, if_true]
      rw [headerLookup_setHeader_ne _ _ _ _ hkh]
      exact headerLookup_mergeHeaders_mem extra [] k v hmem hnd
    · simp only [hh, if_false]
      exact headerLookup_mergeHeaders_mem extra [] k v hmem hnd

/-- A concrete context with a host-header override, no referer override, and
one extra header. -/
def ctxTenant : RestContext :=
  { host := "http://cambridge.oae.com", username := .undefined,
    userPassword := .undefined, cookieJar := some 3, strictSSL := false,
    hostHeader := .str "tenant.oae.com", refererHeader := .null,
    additionalHeaders := some [("x-custom", "1")], followRedirect := true }

/-- Witness for claim C7 on a concrete context. -/
theorem claim_C7_witness :
    headerLookup (buildRequestOptions ctxTenant "/api/me" "GET").headers "referer"
      = some "http://tenant.oae.com/"
    ∧ headerLookup (buildRequestOptions ctxTenant "/api/me" "GET").headers "host"
      = some "tenant.oae.com"
    ∧ headerLookup (buildRequestOptions ctxTenant "/api/me" "GET").headers "x-custom"
      = some "1" := by
  have h := claim_C7_url_and_headers ctxTenant "/api/me" "GET"
  refine ⟨h.2.1.trans (by rfl), h.2.2.1 rfl, ?_⟩
  exact h.2.2.2 [("x-custom", "1")] "x-custom" "1" rfl (by simp) (by simp)
    (by decide) (by decide)

/-- Counterexample to claim C9 as stated: a fetched profile with no
`picture` field at all (a 200 response with body `"{}"`) has no picture at
the requested size, yet the continuation does not receive a 404 error pair:
the property access `principal.picture[size]` throws a TypeError and the
continuation is never invoked. -/
theorem claim_C9_counterexample :
    (userDownloadPicture (.str "u:cam:x") (.str "small")
        (.httpResponse 200 "\x7b\x7d") (.httpResponse 200 "img")).1 = .thrown
    ∧ (userDownloadPicture (.str "u:cam:x") (.str "small")
        (.httpResponse 200 "\x7b\x7d") (.httpResponse 200 "img")).1
        ≠ .callback (.err 404 "This user has no picture.")
    ∧ (groupDownloadPicture (.str "g:cam:x") (.str "small")
        (.httpResponse 200 "\x7b\x7d") (.httpResponse 200 "img")).1 = .thrown :=
  ⟨rfl, fun h => DownloadOutcome.noConfusion h, rfl⟩

/-- Claim C9 as amended: `downloadPicture` (groups and users) rejects a
missing size with the error pair `(400, "Missing size parameter")` before any
request is issued; when the fetched principal's `picture` member can be read
without a TypeError and holds nothing truthy at the requested size, the
continuation receives a 404 error pair and no download request is issued;
when the fetched principal or its `picture` member is null or undefined, the
property access throws a TypeError, the continuation is never invoked and no
download request is issued; otherwise the picture URL taken from the fetched
profile is requested. -/
theorem claim_C9_download_picture (pid size : JSVal) (po dlo : RequestOutcome) :
    (truthy size = false →
        groupDownloadPicture pid size po dlo
            = (.callback (.err 400 "Missing size parameter"), [])
        ∧ userDownloadPicture pid size po dlo
            = (.callback (.err 400 "Missing size parameter"), []))
    ∧ (∀ principal picture pic, truthy size = true → handleOutcome po = .ok principal →
        getProp principal "picture" = some picture →
        getProp picture (jsToString size) = some pic →
        truthy pic = false →
        groupDownloadPicture pid size po dlo
            = (.callback (.err 404 "This group has no picture."),
               [("/api/group/" ++ encodeURI pid, "GET")])
        ∧ userDownloadPicture pid size po dlo
            = (.callback (.err 404 "This user has no picture."),
               [("/api/user/" ++ encodeURI pid, "GET")]))
    ∧ (∀ principal, truthy size = true → handleOutcome po = .ok principal →
        (getProp principal "picture" = none
         ∨ ∃ picture, getProp principal "picture" = some picture
             ∧ getProp picture (jsToString size) = none) →
        groupDownloadPicture pid size po dlo
            = (.thrown, [("/api/group/" ++ encodeURI pid, "GET")])
        ∧ userDownloadPicture pid size po dlo
            = (.thrown, [("/api/user/" ++ encodeURI pid, "GET")]))
    ∧ (∀ principal picture pic, truthy size = true → handleOutcome po = .ok principal →
        getProp principal "picture" = some picture →
        getProp picture (jsToString size) = some pic →
        truthy pic = true →
        (groupDownloadPicture pid size po dlo).2
            = [("/api/group/" ++ encodeURI pid, "GET"), (jsToString pic, "GET")]
        ∧ (userDownloadPicture pid size po dlo).2
            = [("/api/user/" ++ encodeURI pid, "GET"), (jsToString pic, "GET")]) := by
  refine ⟨?_, ?_, ?_, ?_⟩
  · intro hsz
    constructor <;> simp [groupDownloadPicture, userDownloadPicture, hsz]
  · intro principal picture pic hsz hok hp1 hp2 hpic
    constructor <;>
      simp [groupDownloadPicture, userDownloadPicture, hsz, hok, hp1, hp2, hpic]
  · intro principal hsz hok hthrow
    rcases hthrow with hp1 | ⟨picture, hp1, hp2⟩
    · constructor <;> simp [groupDownloadPicture, userDownloadPicture, hsz, hok, hp1]
    · constructor <;>
        simp [groupDownloadPicture, userDownloadPicture, hsz, hok, hp1, hp2]
  · intro principal picture pic hsz hok hp1 hp2 hpic
    constructor <;>
      simp [groupDownloadPicture, userDownloadPicture, hsz, hok, hp1, hp2, hpic]

/-- Witness for the amended claim C9: a missing size short-circuits with no
request; a profile whose picture member lacks the size gets the 404 pair
after only the profile fetch; and a present picture is downloaded from the
URL in the fetched profile. -/
theorem claim_C9_witness :
    groupDownloadPicture (.str "g:cam:x") .undefined
        (.httpResponse 200 "\x7b\x7d") (.httpResponse 200 "img")
      = (.callback (.err 400 "Missing size parameter"), [])
    ∧ userDownloadPicture (.str "u:cam:x") (.str "small")
        (.httpResponse 200 "\x7b\"picture\":\x7b\x7d\x7d") (.httpResponse 200 "img")
      = (.callback (.err 404 "This user has no picture."),
         [("/api/user/u%3Acam%3Ax", "GET")])
    ∧ (userDownloadPicture (.str "u:cam:x") (.str "small")
        (.httpResponse 200 "\x7b\"picture\":\x7b\"small\":\"/p/s.jpg\"\x7d\x7d")
        (.httpResponse 200 "img")).2
      = [("/api/user/u%3Acam%3Ax", "GET"), ("/p/s.jpg", "GET")] := by
  have h1 := claim_C9_download_picture (.str "g:cam:x") .undefined
    (.httpResponse 200 "\x7b\x7d") (.httpResponse 200 "img")
  have h2 := claim_C9_download_picture (.str "u:cam:x") (.str "small")
    (.httpResponse 200 "\x7b\"picture\":\x7b\x7d\x7d") (.httpResponse 200 "img")
  have h3 := claim_C9_download_picture (.str "u:cam:x") (.str "small")
    (.httpResponse 200 "\x7b\"picture\":\x7b\"small\":\"/p/s.jpg\"\x7d\x7d")
    (.httpResponse 200 "img")
  refine ⟨(h1.1 rfl).1, ?_, ?_⟩
  · exact ((h2.2.1 (.obj [("picture", .obj [])]) (.obj []) .undefined
      rfl rfl rfl rfl rfl).2).trans (by rfl)
  · exact ((h3.2.2.2 (.obj [("picture", .obj [("small", .str "/p/s.jpg")])])
      (.obj [("small", .str "/p/s.jpg")]) (.str "/p/s.jpg")
      rfl rfl rfl rfl rfl).2).trans (by rfl)

end OAERest
